import Mathlib

/-!
# Verification of the MycilaDimmer library core

Shallow embedding of the MycilaDimmer sources (`MycilaDimmer.h`,
`MycilaDimmerPhaseControl.h`, `MycilaDimmerThyristor.h/.cpp`,
`MycilaDimmerCycleStealing.cpp`).  C `float` arithmetic on duty cycles is
modelled by exact rational arithmetic (`ℚ`); the trigonometric metric and
harmonic formulas are modelled over `ℝ`; C unsigned integers are `ℕ` with
explicit truncation where the source can wrap; `NaN`-valued outputs are
modelled with `Option` (`none` = NaN).
-/

----------------------------------------------------------------
-- Constants (MycilaDimmerPhaseControl.h, MycilaDimmerThyristor.cpp)
----------------------------------------------------------------

def UINT16_MAX : ℕ := 65535

/-- `PHASE_DELAY_MIN_US` from `MycilaDimmerThyristor.cpp`: minimum firing
delay (µs) to reach sufficient gate current. -/
def PHASE_DELAY_MIN_US : ℕ := 90

def DIMMER_RESOLUTION : ℕ := 12

def FIRING_DELAYS_LEN : ℕ := 200

/-- `FIRING_DELAY_MAX = (1 << DIMMER_RESOLUTION) - 1 = 4095`. -/
def FIRING_DELAY_MAX : ℕ := (1 <<< DIMMER_RESOLUTION) - 1

/-- `FIRING_DELAYS_SCALE = (FIRING_DELAYS_LEN - 1) * (1 << (16 - DIMMER_RESOLUTION))`. -/
def FIRING_DELAYS_SCALE : ℕ := (FIRING_DELAYS_LEN - 1) * (1 <<< (16 - DIMMER_RESOLUTION))

/-- The 200-entry firing-delay table of `MycilaDimmerPhaseControl.h`,
embedded verbatim. -/
def FIRING_DELAYS : List ℕ := [
  0xffff, 0xe877, 0xe240, 0xddd9, 0xda51, 0xd74f, 0xd4aa, 0xd248, 0xd01a, 0xce16,
  0xcc34, 0xca6e, 0xc8c0, 0xc728, 0xc5a1, 0xc42b, 0xc2c3, 0xc168, 0xc019, 0xbed3,
  0xbd98, 0xbc65, 0xbb3b, 0xba17, 0xb8fb, 0xb7e5, 0xb6d5, 0xb5ca, 0xb4c5, 0xb3c4,
  0xb2c8, 0xb1d1, 0xb0dd, 0xafed, 0xaf01, 0xae18, 0xad33, 0xac51, 0xab71, 0xaa95,
  0xa9bb, 0xa8e3, 0xa80e, 0xa73b, 0xa66b, 0xa59c, 0xa4d0, 0xa406, 0xa33d, 0xa276,
  0xa1b1, 0xa0ed, 0xa02b, 0x9f6b, 0x9eac, 0x9dee, 0x9d32, 0x9c76, 0x9bbc, 0x9b04,
  0x9a4c, 0x9996, 0x98e0, 0x982b, 0x9778, 0x96c5, 0x9613, 0x9563, 0x94b2, 0x9403,
  0x9354, 0x92a6, 0x91f9, 0x914c, 0x90a0, 0x8ff5, 0x8f4a, 0x8ea0, 0x8df6, 0x8d4d,
  0x8ca4, 0x8bfb, 0x8b53, 0x8aab, 0x8a04, 0x895d, 0x88b6, 0x8810, 0x876a, 0x86c4,
  0x861e, 0x8579, 0x84d3, 0x842e, 0x8389, 0x82e4, 0x823f, 0x819b, 0x80f6, 0x8051,
  0x7fad, 0x7f08, 0x7e63, 0x7dbf, 0x7d1a, 0x7c75, 0x7bd0, 0x7b2b, 0x7a85, 0x79e0,
  0x793a, 0x7894, 0x77ee, 0x7748, 0x76a1, 0x75fa, 0x7553, 0x74ab, 0x7403, 0x735a,
  0x72b1, 0x7208, 0x715e, 0x70b4, 0x7009, 0x6f5e, 0x6eb2, 0x6e05, 0x6d58, 0x6caa,
  0x6bfb, 0x6b4c, 0x6a9b, 0x69eb, 0x6939, 0x6886, 0x67d3, 0x671e, 0x6668, 0x65b2,
  0x64fa, 0x6442, 0x6388, 0x62cc, 0x6210, 0x6152, 0x6093, 0x5fd3, 0x5f11, 0x5e4d,
  0x5d88, 0x5cc1, 0x5bf8, 0x5b2e, 0x5a62, 0x5993, 0x58c3, 0x57f0, 0x571b, 0x5643,
  0x5569, 0x548d, 0x53ad, 0x52cb, 0x51e6, 0x50fd, 0x5011, 0x4f21, 0x4e2d, 0x4d36,
  0x4c3a, 0x4b39, 0x4a34, 0x4929, 0x4819, 0x4703, 0x45e7, 0x44c3, 0x4399, 0x4266,
  0x412b, 0x3fe5, 0x3e96, 0x3d3b, 0x3bd3, 0x3a5d, 0x38d6, 0x373e, 0x3590, 0x33ca,
  0x31e8, 0x2fe4, 0x2db6, 0x2b54, 0x28af, 0x25ad, 0x2225, 0x1dbe, 0x1787, 0x0000]

/-- `FIRING_DELAYS[i]` (reads past the table never happen in verified uses;
out-of-range defaults to 0). -/
def Tget (i : ℕ) : ℕ := FIRING_DELAYS.getD i 0

/-- Linear boolean scan checking that a list is non-increasing.  Used to
verify the table's monotonicity by plain evaluation (`rfl`), keeping the
kernel check of that fact linear in the table size. -/
def decreasingFrom : List ℕ → Bool
  | [] => true
  | [_] => true
  | a :: b :: rest => decide (b ≤ a) && decreasingFrom (b :: rest)

----------------------------------------------------------------
-- Firing-delay LUT lookup (`PhaseControlDimmer::_lookupFiringDelay`)
----------------------------------------------------------------

/-- `uint32_t duty = dutyCycle * FIRING_DELAY_MAX;` — the float product is
truncated towards zero by the integer conversion. -/
def dutyOf (m : ℚ) : ℕ := ⌊m * (FIRING_DELAY_MAX : ℚ)⌋.toNat

/-- `uint32_t slot = duty * FIRING_DELAYS_SCALE + (FIRING_DELAYS_SCALE >> 1);` -/
def slotOf (m : ℚ) : ℕ := dutyOf m * FIRING_DELAYS_SCALE + (FIRING_DELAYS_SCALE >>> 1)

/-- `uint32_t index = slot >> 16;` -/
def indexOf (m : ℚ) : ℕ := slotOf m >>> 16

/-- `slot & 0xffff` -/
def fracOf (m : ℚ) : ℕ := slotOf m % 65536

/-- `uint32_t delay = a - (((a - b) * (slot & 0xffff)) >> 16);` with
`a = FIRING_DELAYS[index]`, `b = FIRING_DELAYS[index + 1]`. -/
def delay16Of (m : ℚ) : ℕ :=
  Tget (indexOf m) - ((Tget (indexOf m) - Tget (indexOf m + 1)) * fracOf m) >>> 16

/-- `return (delay * _semiPeriod) >> 16;` — the full
`PhaseControlDimmer::_lookupFiringDelay(dutyCycle)` with the semi-period
passed explicitly. -/
def lookupFiringDelay (m : ℚ) (semiPeriod : ℕ) : ℕ := (delay16Of m * semiPeriod) >>> 16

/-- Modelled from the spec (§4.2 lookup, step 1 using *rounding*): the
five-step reference lookup exactly as claim C5 words it, with
`duty16 = round(d · 0xFFF)`. -/
def specLookupRounded (m : ℚ) (semiPeriod : ℕ) : ℕ :=
  let duty16 := ⌊m * 4095 + 1/2⌋.toNat
  let slot := duty16 * (199 * 16) + (199 * 16) / 2
  let index := slot / 65536
  let frac := slot % 65536
  let delay16 := Tget index - (Tget index - Tget (index + 1)) * frac / 65536
  delay16 * semiPeriod / 65536

/-- The five-step reference lookup amended to *truncate* `d · 0xFFF`
(matching the source's integer conversion); everything else as the spec
words it. -/
def specLookupTruncated (m : ℚ) (semiPeriod : ℕ) : ℕ :=
  let duty16 := ⌊m * 4095⌋.toNat
  let slot := duty16 * (199 * 16) + (199 * 16) / 2
  let index := slot / 65536
  let frac := slot % 65536
  let delay16 := Tget index - (Tget index - Tget (index + 1)) * frac / 65536
  delay16 * semiPeriod / 65536

----------------------------------------------------------------
-- Dimmer state and setters (`Mycila::Dimmer`, MycilaDimmer.h)
----------------------------------------------------------------

/-- `Dimmer::_contrain(amt, low, high)`. -/
def contrain (amt low high : ℚ) : ℚ :=
  if amt < low then low else if amt > high then high else amt

/-- The state of a `Mycila::Dimmer` (the process-wide `_semiPeriod` is
carried as a field). -/
structure Dimmer where
  enabled : Bool
  online : Bool
  dutyCycle : ℚ
  dutyCycleFire : ℚ
  dutyCycleLimit : ℚ
  dutyCycleMin : ℚ
  dutyCycleMax : ℚ
  powerLUTEnabled : Bool
  semiPeriod : ℕ
deriving DecidableEq

/-- State after construction: the C++ member initializers. -/
def Dimmer.init : Dimmer :=
  { enabled := false, online := false, dutyCycle := 0, dutyCycleFire := 0,
    dutyCycleLimit := 1, dutyCycleMin := 0, dutyCycleMax := 1,
    powerLUTEnabled := false, semiPeriod := 0 }

/-- `Dimmer::isOnline()`. -/
def Dimmer.isOnline (s : Dimmer) : Bool :=
  s.enabled && s.online && (!s.powerLUTEnabled || decide (0 < s.semiPeriod))

/-- `Dimmer::getDutyCycleMapped()`. -/
def Dimmer.getDutyCycleMapped (s : Dimmer) : ℚ :=
  s.dutyCycleMin + s.dutyCycle * (s.dutyCycleMax - s.dutyCycleMin)

/-- `Dimmer::getDutyCycleFire()`. -/
def Dimmer.getDutyCycleFire (s : Dimmer) : ℚ :=
  if s.isOnline then s.dutyCycleFire else 0

/-- The `_dutyCycleFire` computation inside `Dimmer::setDutyCycle` (the
`if (_powerLUTEnabled)` ladder), as a function of the mapped duty cycle. -/
def fireFromMapped (lutEnabled : Bool) (semiPeriod : ℕ) (mapped : ℚ) : ℚ :=
  if lutEnabled then
    if mapped = 0 then 0
    else if mapped = 1 then 1
    else if 0 < semiPeriod then
      1 - (lookupFiringDelay mapped semiPeriod : ℚ) / (semiPeriod : ℚ)
    else mapped
  else mapped

/-- `Dimmer::setDutyCycle(dutyCycle)`: returns the new state together with
the C++ return value `isOnline() && _apply()`; the base `Dimmer::_apply()`
returns `_enabled` and changes nothing. -/
def Dimmer.setDutyCycle (s : Dimmer) (x : ℚ) : Dimmer × Bool :=
  let s1 := { s with dutyCycle := contrain x 0 s.dutyCycleLimit }
  let s2 := { s1 with
    dutyCycleFire := fireFromMapped s1.powerLUTEnabled s1.semiPeriod s1.getDutyCycleMapped }
  (s2, s2.isOnline && s2.enabled)

/-- `Dimmer::setDutyCycleLimit(limit)`. -/
def Dimmer.setDutyCycleLimit (s : Dimmer) (limit : ℚ) : Dimmer :=
  let s1 := { s with dutyCycleLimit := contrain limit 0 1 }
  if s1.dutyCycle > s1.dutyCycleLimit then (s1.setDutyCycle s1.dutyCycleLimit).1 else s1

/-- `Dimmer::setDutyCycleMin(min)`. -/
def Dimmer.setDutyCycleMin (s : Dimmer) (lo : ℚ) : Dimmer :=
  let s1 := { s with dutyCycleMin := contrain lo 0 s.dutyCycleMax }
  (s1.setDutyCycle s1.dutyCycle).1

/-- `Dimmer::setDutyCycleMax(max)`. -/
def Dimmer.setDutyCycleMax (s : Dimmer) (hi : ℚ) : Dimmer :=
  let s1 := { s with dutyCycleMax := contrain hi s.dutyCycleMin 1 }
  (s1.setDutyCycle s1.dutyCycle).1

/-- One call to one of the four duty-cycle setters. -/
inductive SetterOp where
  | setDuty (x : ℚ)
  | setLimit (l : ℚ)
  | setMin (m : ℚ)
  | setMax (m : ℚ)

def applySetter (s : Dimmer) : SetterOp → Dimmer
  | .setDuty x => (s.setDutyCycle x).1
  | .setLimit l => s.setDutyCycleLimit l
  | .setMin m => s.setDutyCycleMin m
  | .setMax m => s.setDutyCycleMax m

def applySetters (s : Dimmer) (ops : List SetterOp) : Dimmer :=
  ops.foldl applySetter s

/-- The bound invariant of claim C8 / spec §8.1. -/
def Dimmer.Invariant (s : Dimmer) : Prop :=
  0 ≤ s.dutyCycle ∧ s.dutyCycle ≤ s.dutyCycleLimit ∧ s.dutyCycleLimit ≤ 1 ∧
    0 ≤ s.dutyCycleMin ∧ s.dutyCycleMin ≤ s.dutyCycleMax ∧ s.dutyCycleMax ≤ 1

instance (s : Dimmer) : Decidable s.Invariant := by
  unfold Dimmer.Invariant; infer_instance

----------------------------------------------------------------
-- Thyristor backend (`Mycila::ThyristorDimmer`)
----------------------------------------------------------------

/-- `ThyristorDimmer::_apply()`: the new value stored into `_delay`
(a `uint16_t`; in the middle branch `(1−fire)·S < S ≤ 65535`, so the
float-to-`uint16_t` conversion is plain truncation). -/
def thyristorApplyDelay (online : Bool) (semiPeriod : ℕ) (fire : ℚ) : ℕ :=
  if online = false ∨ semiPeriod = 0 ∨ fire = 0 then UINT16_MAX
  else if fire = 1 then 0
  else ⌊(1 - fire) * (semiPeriod : ℚ)⌋.toNat

/-- The per-dimmer `alarm_count` programmed by
`ThyristorDimmer::onZeroCross` from the latched `_delay`: when `_delay` is
nonzero the gate is pulled low and the alarm is `max(_delay, 90)`; when
`_delay == 0` the gate is raised at the zero-cross itself and the node is
marked already fired (`UINT16_MAX`). -/
def onZeroCrossAlarmCount (delay : ℕ) : ℕ :=
  if delay ≠ 0 then (if delay < PHASE_DELAY_MIN_US then PHASE_DELAY_MIN_US else delay)
  else UINT16_MAX

/-- The `delay == 0` branch of `ThyristorDimmer::onZeroCross`: the GPIO is
driven HIGH immediately at the zero-cross (effective firing delay 0). -/
def firesImmediatelyAtZeroCross (delay : ℕ) : Bool := delay = 0

----------------------------------------------------------------
-- Thyristor alarm ISR (`ThyristorDimmer::_fireTimerISR`)
----------------------------------------------------------------

/-- A node of the intrusive registry (`RegisteredDimmer`) as seen by the
alarm ISR: its pin's current GPIO level and its `alarm_count`. -/
structure ThyNode where
  pin : ℕ
  gpioLevel : Bool
  alarmCount : ℕ
deriving DecidableEq

/-- Per-node action of one pass of the list walk inside
`ThyristorDimmer::_fireTimerISR`: a dimmer that has not been fired yet
(`alarm_count != UINT16_MAX`) and whose time has come
(`alarm_count <= count`) gets its GPIO raised and is marked fired. -/
def thyFireNode (count : ℕ) (nd : ThyNode) : ThyNode :=
  if nd.alarmCount ≠ UINT16_MAX ∧ nd.alarmCount ≤ count then
    { nd with gpioLevel := true, alarmCount := UINT16_MAX }
  else nd

/-- The registry traversal of `ThyristorDimmer::_fireTimerISR` at timer
count `count`.  Note well: the C++ function starts processing
unconditionally — there is no `inside_isr` re-entry guard in
`MycilaDimmerThyristor.cpp` (the guard exists only in
`MycilaDimmerCycleStealing.cpp`), so every invocation, nested or not, runs
this traversal. -/
def thyristorFireTimerISR (count : ℕ) (nodes : List ThyNode) : List ThyNode :=
  nodes.map (thyFireNode count)

----------------------------------------------------------------
-- Cycle-stealing alarm ISR (`CycleStealingDimmer::_fireTimerISR`)
----------------------------------------------------------------

/-- A registry node of the cycle-stealing engine: the dimmer's observable
firing duty cycle (`getDutyCycleFire()`), its GPIO level and the per-node
scheduling counters (`uint8_t`, kept `< 256` by explicit wrapping). -/
structure CSNode where
  dutyCycleFire : ℚ
  pin : ℕ
  gpioLevel : Bool
  semiPeriodOdd : Bool
  semiPeriodCounter : ℕ
  semiPeriodOnCount : ℕ
deriving DecidableEq

/-- State shared by the cycle-stealing engine: the `inside_isr` re-entry
flag, whether `inlined_gptimer_get_raw_count` succeeds, and the registry. -/
structure CSState where
  insideISR : Bool
  timerOk : Bool
  nodes : List CSNode
deriving DecidableEq

/-- The per-dimmer body of the list walk in
`CycleStealingDimmer::_fireTimerISR` (the window-based balanced
cycle-stealing decision).  `uint8_t` arithmetic is modelled with explicit
`% 256`. -/
def csProcessNode (nd : CSNode) : CSNode :=
  let d := nd.dutyCycleFire
  if 1 ≤ d then
    { nd with gpioLevel := true, semiPeriodOdd := !nd.semiPeriodOdd }
  else if d ≤ 0 then
    { nd with gpioLevel := false, semiPeriodOdd := !nd.semiPeriodOdd }
  else
    let windowSize : ℕ := 20
    let targetOnCount : ℕ := ⌊d * (windowSize : ℚ) + 1/2⌋.toNat
    let counter1 := (nd.semiPeriodCounter + 1) % 256
    let counter := if windowSize ≤ counter1 then 0 else counter1
    let onCount := if windowSize ≤ counter1 then 0 else nd.semiPeriodOnCount
    let shouldConduct :=
      if windowSize / 2 ≤ targetOnCount then
        let targetOffCount := windowSize - targetOnCount
        let currentOffCount := (counter + 256 - onCount) % 256
        if currentOffCount < targetOffCount then
          let offRatio : ℚ := ((targetOffCount - currentOffCount : ℕ) : ℚ) /
            ((windowSize - counter : ℕ) : ℚ)
          (nd.semiPeriodOdd && decide (offRatio < 1/2)) ||
            (!nd.semiPeriodOdd && decide (1/2 ≤ offRatio))
        else true
      else
        if onCount < targetOnCount then
          let onRatio : ℚ := ((targetOnCount - onCount : ℕ) : ℚ) /
            ((windowSize - counter : ℕ) : ℚ)
          (nd.semiPeriodOdd && decide (1/2 ≤ onRatio)) ||
            (!nd.semiPeriodOdd && decide (onRatio < 1/2))
        else false
    { nd with
      gpioLevel := shouldConduct,
      semiPeriodOdd := !nd.semiPeriodOdd,
      semiPeriodCounter := counter,
      semiPeriodOnCount := if shouldConduct then (onCount + 1) % 256 else onCount }

/-- `CycleStealingDimmer::_fireTimerISR` as a state transformer.  If
`inside_isr` is already set the invocation returns immediately, touching
nothing.  Otherwise it sets the flag, walks the registry, and clears the
flag before returning (so the flag is `false` again in the final state). -/
def csFireTimerISR (s : CSState) : CSState :=
  if s.insideISR then s
  else if !s.timerOk then s
  else { s with nodes := s.nodes.map csProcessNode }

----------------------------------------------------------------
-- Metrics (`Dimmer::_calculatePhaseControlMetrics`, over ℝ; NaN = none)
----------------------------------------------------------------

/-- `Dimmer::Metrics`.  `powerFactor` and `thdi` may be NaN (`none`). -/
structure Metrics where
  voltage : ℝ
  current : ℝ
  power : ℝ
  apparentPower : ℝ
  powerFactor : Option ℝ
  thdi : Option ℝ

/-- `Dimmer::_calculatePhaseControlMetrics(metrics, dutyCycleFire,
gridVoltage, loadResistance)`: `none` models returning `false` with the
metrics not filled. -/
noncomputable def calculatePhaseControlMetrics (d V R : ℝ) : Option Metrics :=
  if 0 < R ∧ 0 < V then
    if 0 < d then
      if 1 ≤ d then
        some { voltage := V, current := V / R, power := V * V / R,
               apparentPower := V * V / R, powerFactor := some 1, thdi := some 0 }
      else
        let pf := Real.sqrt d
        let volt := pf * V
        some { voltage := volt, current := volt / R, power := d * (V * V / R),
               apparentPower := V * (volt / R), powerFactor := some pf,
               thdi := some (100 * Real.sqrt (1 / d - 1)) }
    else
      some { voltage := 0, current := 0, power := 0, apparentPower := 0,
             powerFactor := none, thdi := none }
  else none

/-- `ThyristorDimmer::calculateMetrics`: `isEnabled() && _calculatePhaseControlMetrics(...)`. -/
noncomputable def thyristorCalculateMetrics (enabled : Bool) (d V R : ℝ) : Option Metrics :=
  if enabled then calculatePhaseControlMetrics d V R else none

/-- Modelled from the spec: `calculate_metrics` exactly as claim C4 words
it — fails when `V ≤ 0` or `R ≤ 0` or the dimmer is disabled; cases
`d = 0`, `d ≥ 1`, `0 < d < 1` with the closed-form identities. -/
noncomputable def specCalculateMetrics (enabled : Bool) (d V R : ℝ) : Option Metrics :=
  if V ≤ 0 ∨ R ≤ 0 ∨ enabled = false then none
  else if d = 0 then
    some { voltage := 0, current := 0, power := 0, apparentPower := 0,
           powerFactor := none, thdi := none }
  else if 1 ≤ d then
    some { voltage := V, current := V / R, power := V * V / R,
           apparentPower := V * V / R, powerFactor := some 1, thdi := some 0 }
  else
    let pf := Real.sqrt d
    let vout := pf * V
    let i := vout / R
    some { voltage := vout, current := i, power := d * (V * V / R),
           apparentPower := V * i, powerFactor := some pf,
           thdi := some (100 * Real.sqrt (1 / d - 1)) }

----------------------------------------------------------------
-- Harmonics (`Dimmer::calculateHarmonics` and
-- `Dimmer::_calculatePhaseControlHarmonics`, over ℝ; NaN = none)
----------------------------------------------------------------

/-- `firingAngle = M_PI * (1.0f - dutyCycleFire)`. -/
noncomputable def firingAngle (fire : ℝ) : ℝ := Real.pi * (1 - fire)

/-- `i1_rms = sqrtf((2.0f / M_PI) * (M_PI - firingAngle + 0.5f * sin_2a))`. -/
noncomputable def i1rms (fire : ℝ) : ℝ :=
  Real.sqrt ((2 / Real.pi) *
    (Real.pi - firingAngle fire + 0.5 * Real.sin (2 * firingAngle fire)))

/-- `scale_factor = (2.0f / M_PI) * 0.70710678f * 100.0f / i1_rms`. -/
noncomputable def harmonicScaleFactor (fire : ℝ) : ℝ :=
  (2 / Real.pi) * 0.70710678 * 100 / i1rms fire

/-- The odd-harmonic entry written into `array[i]` (`i ≥ 1`, harmonic
`n = 2i + 1`) by `_calculatePhaseControlHarmonics`. -/
noncomputable def harmonicEntry (fire : ℝ) (i : ℕ) : ℝ :=
  let nf : ℝ := (2 * i + 1 : ℕ)
  |Real.cos ((nf - 1) * firingAngle fire) / (nf - 1) -
      Real.cos ((nf + 1) * firingAngle fire) / (nf + 1)| * harmonicScaleFactor fire

/-- `Dimmer::_calculatePhaseControlHarmonics(dutyCycleFire, array, n)`
acting on an all-NaN array of length `n`: returns the C++ boolean result
and the final array contents (`none` = NaN). -/
noncomputable def calculatePhaseControlHarmonics (fire : ℝ) (n : ℕ) :
    Bool × List (Option ℝ) :=
  if i1rms fire ≤ 0.001 then (false, List.replicate n none)
  else (true, some 100 :: (List.range (n - 1)).map fun j => some (harmonicEntry fire (j + 1)))

/-- `Dimmer::calculateHarmonics(array, n)` for the thyristor backend
(`_calculateHarmonics` delegates to `_calculatePhaseControlHarmonics`),
taking the observable `isOnline()` and `_dutyCycleFire` as inputs. -/
noncomputable def dimmerCalculateHarmonics (online : Bool) (fire : ℝ) (n : ℕ) :
    Bool × List (Option ℝ) :=
  if n = 0 then (false, [])
  else if online = false ∨ fire ≤ 0 then (true, List.replicate n (some 0))
  else if 1 ≤ fire then (true, some 100 :: List.replicate (n - 1) (some 0))
  else calculatePhaseControlHarmonics fire n

----------------------------------------------------------------
-- Facts about the firing-delay table
----------------------------------------------------------------

theorem firingDelays_length : FIRING_DELAYS.length = 200 := by rfl

set_option maxRecDepth 4096 in
theorem decreasingFrom_firingDelays : decreasingFrom FIRING_DELAYS = true := rfl

theorem decreasingFrom_getD : ∀ (l : List ℕ), decreasingFrom l = true →
    ∀ i : ℕ, i + 1 < l.length → l.getD (i + 1) 0 ≤ l.getD i 0 := by
  intro l
  induction l with
  | nil =>
    intro _ i hi
    simp at hi
  | cons a t ih =>
    cases t with
    | nil =>
      intro _ i hi
      simp at hi
    | cons b rest =>
      intro h i hi
      rw [show decreasingFrom (a :: b :: rest) =
          (decide (b ≤ a) && decreasingFrom (b :: rest)) from rfl] at h
      simp only [Bool.and_eq_true, decide_eq_true_eq] at h
      have hba := h.1
      have hrest := h.2
      cases i with
      | zero => exact hba
      | succ j =>
        have hlen : j + 1 < (b :: rest).length := by
          simp only [List.length_cons] at hi ⊢
          omega
        exact ih hrest j hlen

/-- The table is monotonically non-increasing (adjacent entries). -/
theorem firingDelays_adj : ∀ i : Fin 199, Tget (i.1 + 1) ≤ Tget i.1 := by
  intro i
  have hlt := i.2
  exact decreasingFrom_getD FIRING_DELAYS decreasingFrom_firingDelays i.1
    (by rw [firingDelays_length]; omega)

theorem tget_anti {i j : ℕ} (h : i ≤ j) : Tget j ≤ Tget i := by
  induction j with
  | zero =>
    rcases Nat.le_zero.mp h with rfl
    exact Nat.le_refl _
  | succ k ih =>
    rcases Nat.eq_or_lt_of_le h with rfl | hlt
    · exact Nat.le_refl _
    · have hik : i ≤ k := Nat.lt_succ_iff.mp hlt
      have step : Tget (k + 1) ≤ Tget k := by
        rcases Nat.lt_or_ge k 199 with hk | hk
        · exact firingDelays_adj ⟨k, hk⟩
        · have hz : Tget (k + 1) = 0 := by
            unfold Tget
            rw [List.getD_eq_default _ _ (by rw [firingDelays_length]; omega)]
          rw [hz]
          exact Nat.zero_le _
      exact Nat.le_trans step (ih hik)

theorem tget_zero : Tget 0 = 65535 := by rfl

theorem tget_199 : Tget 199 = 0 := by rfl

theorem tget_le_top (i : ℕ) : Tget i ≤ 65535 := by
  have := tget_anti (Nat.zero_le i)
  rwa [tget_zero] at this

----------------------------------------------------------------
-- Arithmetic facts about the lookup pipeline
----------------------------------------------------------------

theorem shift16_eq (n : ℕ) : n >>> 16 = n / 65536 := by
  rw [Nat.shiftRight_eq_div_pow]

theorem slotOf_eq (m : ℚ) : slotOf m = dutyOf m * 3184 + 1592 := by rfl

theorem fireDelayMax_cast : (FIRING_DELAY_MAX : ℚ) = 4095 := by
  have h : FIRING_DELAY_MAX = 4095 := by rfl
  rw [h]
  norm_num

theorem dutyOf_mono {a b : ℚ} (h : a ≤ b) : dutyOf a ≤ dutyOf b := by
  unfold dutyOf
  exact Int.toNat_le_toNat (Int.floor_le_floor
    (mul_le_mul_of_nonneg_right h (by norm_num)))

theorem dutyOf_le {m : ℚ} (h : m ≤ 1) : dutyOf m ≤ 4095 := by
  unfold dutyOf
  have h1 : m * (FIRING_DELAY_MAX : ℚ) ≤ 4095 := by
    rw [fireDelayMax_cast]
    nlinarith
  have h2 : ⌊m * (FIRING_DELAY_MAX : ℚ)⌋ ≤ (4095 : ℤ) :=
    (Int.floor_le_floor h1).trans (by norm_num)
  exact Int.toNat_le.mpr h2

theorem slotOf_mono {a b : ℚ} (h : a ≤ b) : slotOf a ≤ slotOf b := by
  unfold slotOf
  exact Nat.add_le_add_right (Nat.mul_le_mul_right _ (dutyOf_mono h)) _

theorem slotOf_le {m : ℚ} (h : m ≤ 1) : slotOf m ≤ 13040072 := by
  rw [slotOf_eq]
  have := dutyOf_le h
  omega

theorem indexOf_mono {a b : ℚ} (h : a ≤ b) : indexOf a ≤ indexOf b := by
  unfold indexOf
  rw [shift16_eq, shift16_eq]
  exact Nat.div_le_div_right (slotOf_mono h)

theorem indexOf_le {m : ℚ} (h : m ≤ 1) : indexOf m ≤ 198 := by
  unfold indexOf
  rw [shift16_eq]
  have := slotOf_le h
  omega

theorem slot_decomp (m : ℚ) : 65536 * indexOf m + fracOf m = slotOf m := by
  unfold indexOf fracOf
  rw [shift16_eq]
  exact Nat.div_add_mod _ _

theorem fracOf_lt (m : ℚ) : fracOf m < 65536 := Nat.mod_lt _ (by norm_num)

theorem delay16Of_le_tget (m : ℚ) : delay16Of m ≤ Tget (indexOf m) := Nat.sub_le _ _

theorem tget_le_delay16Of (m : ℚ) : Tget (indexOf m + 1) ≤ delay16Of m := by
  unfold delay16Of
  have hba : Tget (indexOf m + 1) ≤ Tget (indexOf m) := tget_anti (Nat.le_succ _)
  have h1 : ((Tget (indexOf m) - Tget (indexOf m + 1)) * fracOf m) >>> 16 ≤
      Tget (indexOf m) - Tget (indexOf m + 1) := by
    rw [shift16_eq]
    calc (Tget (indexOf m) - Tget (indexOf m + 1)) * fracOf m / 65536
        ≤ (Tget (indexOf m) - Tget (indexOf m + 1)) * 65536 / 65536 :=
          Nat.div_le_div_right (Nat.mul_le_mul_left _ (Nat.le_of_lt (fracOf_lt m)))
      _ = Tget (indexOf m) - Tget (indexOf m + 1) := Nat.mul_div_cancel _ (by norm_num)
  omega

theorem delay16Of_anti {a b : ℚ} (h : a ≤ b) : delay16Of b ≤ delay16Of a := by
  rcases Nat.eq_or_lt_of_le (indexOf_mono h) with heq | hlt
  · have hf : fracOf a ≤ fracOf b := by
      have d1 := slot_decomp a
      have d2 := slot_decomp b
      have hs := slotOf_mono h
      omega
    unfold delay16Of
    rw [← heq]
    apply Nat.sub_le_sub_left
    rw [shift16_eq, shift16_eq]
    exact Nat.div_le_div_right (Nat.mul_le_mul_left _ hf)
  · calc delay16Of b ≤ Tget (indexOf b) := delay16Of_le_tget b
      _ ≤ Tget (indexOf a + 1) := tget_anti hlt
      _ ≤ delay16Of a := tget_le_delay16Of a

theorem lookupFiringDelay_anti {a b : ℚ} (h : a ≤ b) (S : ℕ) :
    lookupFiringDelay b S ≤ lookupFiringDelay a S := by
  unfold lookupFiringDelay
  rw [shift16_eq, shift16_eq]
  exact Nat.div_le_div_right (Nat.mul_le_mul_right _ (delay16Of_anti h))

theorem lookupFiringDelay_lt {S : ℕ} (hS : 0 < S) (m : ℚ) : lookupFiringDelay m S < S := by
  unfold lookupFiringDelay
  rw [shift16_eq]
  have h1 : delay16Of m ≤ 65535 := (delay16Of_le_tget m).trans (tget_le_top _)
  calc delay16Of m * S / 65536 ≤ 65535 * S / 65536 :=
        Nat.div_le_div_right (Nat.mul_le_mul_right _ h1)
    _ < S := by
        rw [Nat.div_lt_iff_lt_mul (by norm_num : 0 < 65536)]
        omega

----------------------------------------------------------------
-- Bounds and monotonicity of the duty-cycle-to-fire computation
----------------------------------------------------------------

theorem lookup_div_le_one {S : ℕ} (hS : 0 < S) (m : ℚ) :
    (lookupFiringDelay m S : ℚ) / (S : ℚ) ≤ 1 := by
  have hSpos : (0 : ℚ) < S := by exact_mod_cast hS
  rw [div_le_one hSpos]
  exact_mod_cast (lookupFiringDelay_lt hS m).le

theorem lookup_div_nonneg (S : ℕ) (m : ℚ) :
    0 ≤ (lookupFiringDelay m S : ℚ) / (S : ℚ) := by positivity

theorem fireFromMapped_false_eq (S : ℕ) (m : ℚ) : fireFromMapped false S m = m := rfl

theorem fireFromMapped_true_eq (S : ℕ) (m : ℚ) :
    fireFromMapped true S m =
      (if m = 0 then 0 else if m = 1 then 1 else if 0 < S then
        1 - (lookupFiringDelay m S : ℚ) / (S : ℚ) else m) := rfl

theorem fireFromMapped_true_of_zero_semi {S : ℕ} (hS : ¬ 0 < S) (m : ℚ) :
    fireFromMapped true S m = m := by
  rw [fireFromMapped_true_eq]
  split_ifs with h1 h2
  · exact h1.symm
  · exact h2.symm
  · rfl

theorem fireFromMapped_nonneg (lut : Bool) (S : ℕ) {m : ℚ} (h0 : 0 ≤ m) :
    0 ≤ fireFromMapped lut S m := by
  cases lut with
  | false => exact h0
  | true =>
    by_cases hS : 0 < S
    · rw [fireFromMapped_true_eq]
      split_ifs with h1 h2
      · exact le_refl 0
      · exact zero_le_one
      · have := lookup_div_le_one hS m
        linarith
    · rw [fireFromMapped_true_of_zero_semi hS]
      exact h0

theorem fireFromMapped_le_one (lut : Bool) (S : ℕ) {m : ℚ} (h1 : m ≤ 1) :
    fireFromMapped lut S m ≤ 1 := by
  cases lut with
  | false => exact h1
  | true =>
    by_cases hS : 0 < S
    · rw [fireFromMapped_true_eq]
      split_ifs with ha hb
      · exact zero_le_one
      · exact le_refl 1
      · have := lookup_div_nonneg S m
        linarith
    · rw [fireFromMapped_true_of_zero_semi hS]
      exact h1

theorem fireFromMapped_mono (lut : Bool) (S : ℕ) {m1 m2 : ℚ}
    (h0 : 0 ≤ m1) (h12 : m1 ≤ m2) (h1 : m2 ≤ 1) :
    fireFromMapped lut S m1 ≤ fireFromMapped lut S m2 := by
  cases lut with
  | false => exact h12
  | true =>
    by_cases hS : 0 < S
    · by_cases h1z : m1 = 0
      · rw [h1z, fireFromMapped_true_eq]
        rw [if_pos rfl]
        exact fireFromMapped_nonneg true S (h0.trans h12)
      · by_cases h1o : m1 = 1
        · have h2o : m2 = 1 := le_antisymm h1 (h1o ▸ h12)
          rw [h1o, h2o]
        · have h1pos : 0 < m1 := lt_of_le_of_ne h0 (Ne.symm h1z)
          have h2z : m2 ≠ 0 := by
            intro hz
            rw [hz] at h12
            linarith
          by_cases h2o : m2 = 1
          · rw [h2o]
            have : m1 ≤ 1 := h12.trans h1
            calc fireFromMapped true S m1 ≤ 1 := fireFromMapped_le_one true S this
              _ = fireFromMapped true S 1 := by
                  rw [fireFromMapped_true_eq, if_neg one_ne_zero, if_pos rfl]
          · rw [fireFromMapped_true_eq, fireFromMapped_true_eq,
              if_neg h1z, if_neg h1o, if_pos hS, if_neg h2z, if_neg h2o, if_pos hS]
            have hSpos : (0 : ℚ) < S := by exact_mod_cast hS
            have hL : (lookupFiringDelay m2 S : ℚ) ≤ (lookupFiringDelay m1 S : ℚ) := by
              exact_mod_cast lookupFiringDelay_anti h12 S
            have := (div_le_div_iff_of_pos_right hSpos).mpr hL
            linarith
    · rw [fireFromMapped_true_of_zero_semi hS, fireFromMapped_true_of_zero_semi hS]
      exact h12

----------------------------------------------------------------
-- `_contrain` and the remap window
----------------------------------------------------------------

theorem contrain_mono {low high : ℚ} (hlh : low ≤ high) {a b : ℚ} (h : a ≤ b) :
    contrain a low high ≤ contrain b low high := by
  unfold contrain
  split_ifs <;> linarith

theorem contrain_mem {low high : ℚ} (hlh : low ≤ high) (a : ℚ) :
    low ≤ contrain a low high ∧ contrain a low high ≤ high := by
  unfold contrain
  split_ifs <;> constructor <;> linarith

theorem mapped_mono {dmin dmax : ℚ} (h : dmin ≤ dmax) {d1 d2 : ℚ} (h12 : d1 ≤ d2) :
    dmin + d1 * (dmax - dmin) ≤ dmin + d2 * (dmax - dmin) := by
  nlinarith

theorem mapped_mem {dmin dmax : ℚ} (h0 : 0 ≤ dmin) (h : dmin ≤ dmax) (h1 : dmax ≤ 1)
    {d : ℚ} (hd0 : 0 ≤ d) (hd1 : d ≤ 1) :
    0 ≤ dmin + d * (dmax - dmin) ∧ dmin + d * (dmax - dmin) ≤ 1 := by
  constructor <;> nlinarith


----------------------------------------------------------------
-- Claim theorems
----------------------------------------------------------------

theorem delay16Of_eq_div (m : ℚ) :
    delay16Of m = Tget (indexOf m) -
      (Tget (indexOf m) - Tget (indexOf m + 1)) * fracOf m / 65536 := by
  unfold delay16Of
  rw [shift16_eq]

theorem lookupFiringDelay_eq_div (m : ℚ) (S : ℕ) :
    lookupFiringDelay m S = delay16Of m * S / 65536 := by
  unfold lookupFiringDelay
  rw [shift16_eq]

theorem indexOf_eq_div (m : ℚ) : indexOf m = slotOf m / 65536 := by
  unfold indexOf
  rw [shift16_eq]

theorem specLookupTruncated_eq (m : ℚ) (S : ℕ) :
    specLookupTruncated m S =
      (Tget ((⌊m * 4095⌋.toNat * 3184 + 1592) / 65536) -
        (Tget ((⌊m * 4095⌋.toNat * 3184 + 1592) / 65536) -
          Tget ((⌊m * 4095⌋.toNat * 3184 + 1592) / 65536 + 1)) *
          ((⌊m * 4095⌋.toNat * 3184 + 1592) % 65536) / 65536) * S / 65536 := rfl

/-- C5 (amended): the implemented integer lookup
`PhaseControlDimmer::_lookupFiringDelay` equals the spec's five-step
reference definition once step 1 is amended to truncation
(`duty16 = trunc(d · 0xFFF)`); steps 2-5 are exactly as the spec words
them. -/
theorem C5_lookup_equals_truncated_reference (m : ℚ) (S : ℕ) :
    lookupFiringDelay m S = specLookupTruncated m S := by
  have hd : dutyOf m = ⌊m * 4095⌋.toNat := by
    unfold dutyOf
    rw [fireDelayMax_cast]
  rw [specLookupTruncated_eq, lookupFiringDelay_eq_div, delay16Of_eq_div, indexOf_eq_div]
  unfold fracOf
  rw [slotOf_eq, hd]

theorem dutyOf_half : dutyOf (1/2) = 2047 := by
  unfold dutyOf
  rw [fireDelayMax_cast]
  have h : ⌊(1/2 : ℚ) * 4095⌋ = 2047 := by norm_num
  rw [h]
  rfl

theorem lookupFiringDelay_half : lookupFiringDelay (1/2) 10000 = 5000 := by
  rw [lookupFiringDelay_eq_div, delay16Of_eq_div, indexOf_eq_div]
  unfold fracOf
  rw [slotOf_eq, dutyOf_half]
  decide

theorem specLookupRounded_half : specLookupRounded (1/2) 10000 = 4999 := by
  have h : ⌊(1/2 : ℚ) * 4095 + 1/2⌋.toNat = 2048 := by
    have h2 : ⌊(1/2 : ℚ) * 4095 + 1/2⌋ = 2048 := by norm_num
    rw [h2]
    rfl
  unfold specLookupRounded
  rw [h]
  decide

/-- C5 counterexample: at duty `d = 1/2`, semi-period 10000 µs, the source
truncates `d·0xFFF = 2047.5` to 2047 and returns 5000 µs, while the
claim's reference (which *rounds* to 2048) returns 4999 µs — the claimed
equality with the rounding reference fails at this input. -/
theorem C5_rounding_counterexample :
    lookupFiringDelay (1/2) 10000 = 5000 ∧
    specLookupRounded (1/2) 10000 = 4999 ∧
    lookupFiringDelay (1/2) 10000 ≠ specLookupRounded (1/2) 10000 := by
  refine ⟨lookupFiringDelay_half, specLookupRounded_half, ?_⟩
  rw [lookupFiringDelay_half, specLookupRounded_half]
  decide

theorem contrain_half : contrain (1/2) 0 1 = 1/2 := by
  unfold contrain
  rw [if_neg (by norm_num), if_neg (by norm_num)]

theorem fireFromMapped_half :
    fireFromMapped true 10000 ((0 : ℚ) + 1/2 * (1 - 0)) = 1/2 := by
  have hm : (0 : ℚ) + 1/2 * (1 - 0) = 1/2 := by norm_num
  rw [hm, fireFromMapped_true_eq, if_neg (by norm_num : ¬ ((1/2 : ℚ) = 0)),
    if_neg (by norm_num : ¬ ((1/2 : ℚ) = 1)), if_pos (by norm_num : 0 < 10000),
    lookupFiringDelay_half]
  norm_num

/-- C6 (amended): scenario S2 against the embedded table: with semi-period
10000 µs, power LUT enabled, default limit 1 and remap window [0, 1],
`setDutyCycle(0.5)` produces `duty_cycle_fire = 0.5` exactly and a LUT
firing delay of 5000 µs (the table is symmetric: 50 % power corresponds to
conduction 0.5), not ≈ 0.598 / ≈ 4020 µs. -/
theorem C6_s2_scenario :
    lookupFiringDelay (1/2) 10000 = 5000 ∧
    (({ Dimmer.init with enabled := true, online := true, powerLUTEnabled := true, semiPeriod := 10000 } : Dimmer).setDutyCycle (1/2)).1.dutyCycleFire = 1/2 := by
  refine ⟨lookupFiringDelay_half, ?_⟩
  show fireFromMapped true 10000 (0 + contrain (1/2) 0 1 * (1 - 0)) = 1/2
  rw [contrain_half]
  exact fireFromMapped_half

/-- C6 counterexample: under scenario S2's inputs the code yields
`duty_cycle_fire = 1/2` (not within 0.05 of the claimed ≈ 0.598) and a
firing delay of 5000 µs (not within 300 µs of the claimed ≈ 4020 µs). -/
theorem C6_s2_counterexample :
    (({ Dimmer.init with enabled := true, online := true, powerLUTEnabled := true, semiPeriod := 10000 } : Dimmer).setDutyCycle (1/2)).1.dutyCycleFire = 1/2 ∧
    ¬ |(1 : ℚ)/2 - 598/1000| < 5/100 ∧
    lookupFiringDelay (1/2) 10000 = 5000 ∧
    ¬ (3720 ≤ lookupFiringDelay (1/2) 10000 ∧ lookupFiringDelay (1/2) 10000 ≤ 4320) := by
  refine ⟨?_, ?_, lookupFiringDelay_half, ?_⟩
  · show fireFromMapped true 10000 (0 + contrain (1/2) 0 1 * (1 - 0)) = 1/2
    rw [contrain_half]
    exact fireFromMapped_half
  · have h : (1 : ℚ)/2 - 598/1000 = -(49/500) := by norm_num
    rw [h, abs_neg, abs_of_nonneg (by norm_num : (0 : ℚ) ≤ 49/500)]
    norm_num
  · rw [lookupFiringDelay_half]
    omega

/-- C10: the LUT lookup is total and in-bounds — for every duty cycle in
[0, 1] the interpolation index satisfies `index ≤ 198`, both accesses
`FIRING_DELAYS[index]` and `FIRING_DELAYS[index + 1]` are inside the
200-entry table, and `FIRING_DELAYS[index] - FIRING_DELAYS[index + 1]`
never underflows because the table is non-increasing. -/
theorem C10_lookup_total_inbounds (m : ℚ) (h0 : 0 ≤ m) (h1 : m ≤ 1) :
    indexOf m ≤ 198 ∧ indexOf m + 1 < FIRING_DELAYS.length ∧
      Tget (indexOf m + 1) ≤ Tget (indexOf m) := by
  have hi := indexOf_le h1
  refine ⟨hi, ?_, tget_anti (Nat.le_succ _)⟩
  rw [firingDelays_length]
  omega

theorem C10_witness :
    (0 ≤ (1/2 : ℚ)) ∧ ((1/2 : ℚ) ≤ 1) ∧
    (indexOf (1/2) ≤ 198 ∧ indexOf (1/2) + 1 < FIRING_DELAYS.length ∧
      Tget (indexOf (1/2) + 1) ≤ Tget (indexOf (1/2))) :=
  ⟨by norm_num, by norm_num, C10_lookup_total_inbounds (1/2) (by norm_num) (by norm_num)⟩

/-- C9: `isOnline()` is true exactly when the dimmer is enabled, marked
online, and (power LUT disabled or semi-period positive); consequently
with the LUT enabled but no semi-period set, `getDutyCycleFire()`
observably returns 0 and `setDutyCycle` returns false even though the
dimmer is enabled and marked online. -/
theorem C9_isOnline_gating (s : Dimmer) (x : ℚ) :
    (s.isOnline = true ↔
      (s.enabled = true ∧ s.online = true ∧
        (s.powerLUTEnabled = false ∨ 0 < s.semiPeriod))) ∧
    (s.enabled = true → s.online = true → s.powerLUTEnabled = true → s.semiPeriod = 0 →
      s.getDutyCycleFire = 0 ∧ (s.setDutyCycle x).2 = false) := by
  constructor
  · unfold Dimmer.isOnline
    cases he : s.enabled <;> cases ho : s.online <;> cases hl : s.powerLUTEnabled <;>
      simp [he, ho, hl]
  · intro he ho hl hz
    have hoff : s.isOnline = false := by
      unfold Dimmer.isOnline
      simp [hl, hz]
    constructor
    · unfold Dimmer.getDutyCycleFire
      rw [hoff]
      rfl
    · show ((s.setDutyCycle x).1.isOnline && (s.setDutyCycle x).1.enabled) = false
      have hoff2 : (s.setDutyCycle x).1.isOnline = false := by
        unfold Dimmer.isOnline Dimmer.setDutyCycle
        simp [hl, hz]
      rw [hoff2]
      rfl

theorem C9_witness :
    ({ Dimmer.init with enabled := true, online := true, powerLUTEnabled := true, semiPeriod := 0 } : Dimmer).getDutyCycleFire = 0 ∧
    (({ Dimmer.init with enabled := true, online := true, powerLUTEnabled := true, semiPeriod := 0 } : Dimmer).setDutyCycle (1/2)).2 = false :=
  (C9_isOnline_gating _ (1/2)).2 rfl rfl rfl rfl

/-- C1 (amended): `ThyristorDimmer::_apply` stores `UINT16_MAX` when the
dimmer is offline, the semi-period is 0, or `duty_cycle_fire == 0`;
stores 0 when `duty_cycle_fire == 1`; otherwise stores the truncated
`(1 − duty_cycle_fire) · semi_period_us`.  The 90 µs low-end clamp is
applied by `onZeroCross` to the programmed alarm count, and only when the
stored delay is nonzero; when `(1 − fire) · S` truncates to 0 the gate is
instead raised at the zero-cross itself (effective delay 0, no clamp). -/
theorem C1_thyristor_firing_delay (online : Bool) (S : ℕ) (fire : ℚ) :
    ((online = false ∨ S = 0 ∨ fire = 0) →
      thyristorApplyDelay online S fire = UINT16_MAX) ∧
    (online = true → S ≠ 0 → fire = 1 → thyristorApplyDelay online S fire = 0) ∧
    (online = true → S ≠ 0 → fire ≠ 0 → fire ≠ 1 →
      thyristorApplyDelay online S fire = ⌊(1 - fire) * (S : ℚ)⌋.toNat ∧
      (⌊(1 - fire) * (S : ℚ)⌋.toNat ≠ 0 →
        onZeroCrossAlarmCount (thyristorApplyDelay online S fire) =
          max PHASE_DELAY_MIN_US ⌊(1 - fire) * (S : ℚ)⌋.toNat) ∧
      (⌊(1 - fire) * (S : ℚ)⌋.toNat = 0 →
        firesImmediatelyAtZeroCross (thyristorApplyDelay online S fire) = true)) := by
  refine ⟨?_, ?_, ?_⟩
  · intro h
    unfold thyristorApplyDelay
    rw [if_pos h]
  · intro ho hS h1
    have hcond : ¬ (online = false ∨ S = 0 ∨ fire = 0) := by
      rintro (h | h | h)
      · rw [ho] at h
        exact Bool.noConfusion h
      · exact hS h
      · rw [h1] at h
        exact one_ne_zero h
    unfold thyristorApplyDelay
    rw [if_neg hcond, if_pos h1]
  · intro ho hS h0 h1
    have hcond : ¬ (online = false ∨ S = 0 ∨ fire = 0) := by
      rintro (h | h | h)
      · rw [ho] at h
        exact Bool.noConfusion h
      · exact hS h
      · exact h0 h
    have happ : thyristorApplyDelay online S fire = ⌊(1 - fire) * (S : ℚ)⌋.toNat := by
      unfold thyristorApplyDelay
      rw [if_neg hcond, if_neg h1]
    refine ⟨happ, ?_, ?_⟩
    · intro hnz
      rw [happ]
      unfold onZeroCrossAlarmCount PHASE_DELAY_MIN_US
      rw [if_pos hnz]
      split_ifs with hlt <;> omega
    · intro hz
      rw [happ, hz]
      rfl

theorem C1_witness :
    thyristorApplyDelay true 10000 (199/200) = 50 ∧
    onZeroCrossAlarmCount (thyristorApplyDelay true 10000 (199/200)) = 90 := by
  have hfl : ⌊(1 - 199/200 : ℚ) * ((10000 : ℕ) : ℚ)⌋.toNat = 50 := by
    have h : ⌊(1 - 199/200 : ℚ) * ((10000 : ℕ) : ℚ)⌋ = 50 := by norm_num
    rw [h]
    rfl
  have h := (C1_thyristor_firing_delay true 10000 (199/200)).2.2 rfl
    (by norm_num) (by norm_num) (by norm_num)
  refine ⟨h.1.trans hfl, ?_⟩
  have hnz : ⌊(1 - 199/200 : ℚ) * ((10000 : ℕ) : ℚ)⌋.toNat ≠ 0 := by
    rw [hfl]
    decide
  rw [h.2.1 hnz, hfl]
  decide

/-- C1 counterexample: at `fire = 16777215/16777216` (a value exactly
representable as a C float), online, semi-period 10000 µs, the computed
delay `(1 − fire)·S ≈ 0.0006 µs` is far below 90 µs, yet the resulting
firing delay is not 90 µs: the stored delay truncates to 0 and the
zero-cross handler keeps the gate high from the zero-cross itself
(effective delay 0), refuting the claimed unconditional low-end clamp. -/
theorem C1_clamp_counterexample :
    (0 : ℚ) < 16777215/16777216 ∧ (16777215/16777216 : ℚ) < 1 ∧
    (1 - 16777215/16777216 : ℚ) * 10000 < 90 ∧
    thyristorApplyDelay true 10000 (16777215/16777216) = 0 ∧
    onZeroCrossAlarmCount (thyristorApplyDelay true 10000 (16777215/16777216)) ≠
      PHASE_DELAY_MIN_US ∧
    firesImmediatelyAtZeroCross (thyristorApplyDelay true 10000 (16777215/16777216)) =
      true := by
  have hfl : ⌊(1 - 16777215/16777216 : ℚ) * ((10000 : ℕ) : ℚ)⌋.toNat = 0 := by
    have h : ⌊(1 - 16777215/16777216 : ℚ) * ((10000 : ℕ) : ℚ)⌋ = 0 := by norm_num
    rw [h]
    rfl
  have happ : thyristorApplyDelay true 10000 (16777215/16777216) = 0 := by
    have hcond : ¬ (true = false ∨ (10000 : ℕ) = 0 ∨ (16777215/16777216 : ℚ) = 0) := by
      rintro (h | h | h)
      · exact Bool.noConfusion h
      · exact absurd h (by decide)
      · exact absurd h (by norm_num)
    unfold thyristorApplyDelay
    rw [if_neg hcond, if_neg (by norm_num : ¬ ((16777215/16777216 : ℚ) = 1))]
    exact hfl
  refine ⟨by norm_num, by norm_num, by norm_num, happ, ?_, ?_⟩
  · rw [happ]
    decide
  · rw [happ]
    rfl

/-- C2 (amended): only the cycle-stealing engine's alarm ISR is guarded by
the non-volatile `inside_isr` flag: an invocation of
`CycleStealingDimmer::_fireTimerISR` that begins while a previous
invocation is still in progress (`inside_isr == true`) returns
immediately with the engine state unchanged — no GPIO write, no registry
mutation, no alarm re-armed.  The thyristor engine's alarm ISR has no such
guard (see the counterexample). -/
theorem C2_cycle_stealing_isr_guard (s : CSState) (h : s.insideISR = true) :
    csFireTimerISR s = s := by
  unfold csFireTimerISR
  rw [if_pos h]

theorem C2_witness :
    csFireTimerISR ⟨true, true, [⟨1/2, 5, false, false, 0, 0⟩]⟩ =
      ⟨true, true, [⟨1/2, 5, false, false, 0, 0⟩]⟩ :=
  C2_cycle_stealing_isr_guard _ rfl

/-- C2 counterexample: `ThyristorDimmer::_fireTimerISR` contains no
"already inside" flag — its registry traversal runs unconditionally on
every invocation, so an invocation nested inside another one behaves
exactly like a top-level one.  At timer count 200 with one registered
dimmer pending at `alarm_count = 100`, the ISR raises the GPIO and
mutates the registry node instead of returning with state unchanged,
refuting the claim for the thyristor firing engine. -/
theorem C2_thyristor_no_guard_counterexample :
    thyristorFireTimerISR 200 [⟨5, false, 100⟩] ≠ [⟨5, false, 100⟩] ∧
    thyristorFireTimerISR 200 [⟨5, false, 100⟩] = [⟨5, true, UINT16_MAX⟩] := by decide

theorem setDutyCycle_invariant_of_bounds {s : Dimmer} (hlim0 : 0 ≤ s.dutyCycleLimit)
    (hlim1 : s.dutyCycleLimit ≤ 1) (hmin0 : 0 ≤ s.dutyCycleMin)
    (hminmax : s.dutyCycleMin ≤ s.dutyCycleMax) (hmax1 : s.dutyCycleMax ≤ 1) (x : ℚ) :
    ((s.setDutyCycle x).1).Invariant := by
  have hc := contrain_mem hlim0 x
  exact ⟨hc.1, hc.2, hlim1, hmin0, hminmax, hmax1⟩

theorem setDutyCycle_invariant {s : Dimmer} (h : s.Invariant) (x : ℚ) :
    ((s.setDutyCycle x).1).Invariant := by
  obtain ⟨h1, h2, h3, h4, h5, h6⟩ := h
  exact setDutyCycle_invariant_of_bounds (h1.trans h2) h3 h4 h5 h6 x

theorem setDutyCycleLimit_invariant {s : Dimmer} (h : s.Invariant) (l : ℚ) :
    (s.setDutyCycleLimit l).Invariant := by
  obtain ⟨h1, h2, h3, h4, h5, h6⟩ := h
  have hc := contrain_mem (zero_le_one (α := ℚ)) l
  show (if s.dutyCycle > contrain l 0 1 then
      (({ s with dutyCycleLimit := contrain l 0 1 } : Dimmer).setDutyCycle
        (contrain l 0 1)).1
    else { s with dutyCycleLimit := contrain l 0 1 }).Invariant
  split
  · exact @setDutyCycle_invariant_of_bounds
      { s with dutyCycleLimit := contrain l 0 1 } hc.1 hc.2 h4 h5 h6 _
  · rename_i hgt
    exact ⟨h1, le_of_not_gt hgt, hc.2, h4, h5, h6⟩

theorem setDutyCycleMin_invariant {s : Dimmer} (h : s.Invariant) (lo : ℚ) :
    (s.setDutyCycleMin lo).Invariant := by
  obtain ⟨h1, h2, h3, h4, h5, h6⟩ := h
  have hc := contrain_mem (h4.trans h5) lo
  exact @setDutyCycle_invariant_of_bounds
    { s with dutyCycleMin := contrain lo 0 s.dutyCycleMax }
    (h1.trans h2) h3 hc.1 hc.2 h6 _

theorem setDutyCycleMax_invariant {s : Dimmer} (h : s.Invariant) (hi : ℚ) :
    (s.setDutyCycleMax hi).Invariant := by
  obtain ⟨h1, h2, h3, h4, h5, h6⟩ := h
  have hc := contrain_mem (h5.trans h6) hi
  exact @setDutyCycle_invariant_of_bounds
    { s with dutyCycleMax := contrain hi s.dutyCycleMin 1 }
    (h1.trans h2) h3 h4 hc.1 hc.2 _

theorem applySetter_invariant {s : Dimmer} (h : s.Invariant) (op : SetterOp) :
    (applySetter s op).Invariant := by
  cases op with
  | setDuty x => exact setDutyCycle_invariant h x
  | setLimit l => exact setDutyCycleLimit_invariant h l
  | setMin m => exact setDutyCycleMin_invariant h m
  | setMax m => exact setDutyCycleMax_invariant h m

/-- C8: after any finite sequence of `setDutyCycle`, `setDutyCycleLimit`,
`setDutyCycleMin`, `setDutyCycleMax` calls with arbitrary rational
arguments, the state satisfies
`0 ≤ duty_cycle ≤ duty_cycle_limit ≤ 1` and
`0 ≤ duty_cycle_min ≤ duty_cycle_max ≤ 1`. -/
theorem C8_setter_sequences_preserve_invariant {s : Dimmer} (h : s.Invariant)
    (ops : List SetterOp) : (applySetters s ops).Invariant := by
  induction ops generalizing s with
  | nil => exact h
  | cons op rest ih =>
    have hstep : (applySetter s op).Invariant := applySetter_invariant h op
    exact ih hstep

theorem C8_witness :
    Dimmer.init.Invariant ∧
    (applySetters Dimmer.init
      [SetterOp.setLimit 1, SetterOp.setDuty 2, SetterOp.setMin 0,
        SetterOp.setMax 1]).Invariant := by
  have h0 : Dimmer.init.Invariant :=
    ⟨le_refl 0, zero_le_one, le_refl 1, le_refl 0, zero_le_one, le_refl 1⟩
  exact ⟨h0, C8_setter_sequences_preserve_invariant h0 _⟩

/-- C3: for a fixed power-LUT state, fixed semi-period and fixed remap
window, the `duty_cycle_fire` produced by `setDutyCycle` is monotone
non-decreasing in the requested duty cycle; in the LUT-enabled case this
rests on the 200-entry table being non-increasing with
`T[0] = 0xFFFF` and `T[199] = 0`. -/
theorem C3_dutyCycleFire_monotone (s : Dimmer) (x y : ℚ)
    (hmin0 : 0 ≤ s.dutyCycleMin) (hminmax : s.dutyCycleMin ≤ s.dutyCycleMax)
    (hmax1 : s.dutyCycleMax ≤ 1) (hlim0 : 0 ≤ s.dutyCycleLimit)
    (hlim1 : s.dutyCycleLimit ≤ 1) (hx0 : 0 ≤ x) (hxy : x ≤ y) (hy1 : y ≤ 1) :
    Tget 0 = 0xffff ∧ Tget 199 = 0 ∧
    (∀ i : Fin 199, Tget (i.1 + 1) ≤ Tget i.1) ∧
    (s.setDutyCycle x).1.dutyCycleFire ≤ (s.setDutyCycle y).1.dutyCycleFire := by
  refine ⟨tget_zero, tget_199, firingDelays_adj, ?_⟩
  show fireFromMapped s.powerLUTEnabled s.semiPeriod
      (s.dutyCycleMin + contrain x 0 s.dutyCycleLimit * (s.dutyCycleMax - s.dutyCycleMin)) ≤
    fireFromMapped s.powerLUTEnabled s.semiPeriod
      (s.dutyCycleMin + contrain y 0 s.dutyCycleLimit * (s.dutyCycleMax - s.dutyCycleMin))
  have hcx := contrain_mem hlim0 x
  have hcy := contrain_mem hlim0 y
  have hc := contrain_mono hlim0 hxy
  have hmx := mapped_mem hmin0 hminmax hmax1 hcx.1 (hcx.2.trans hlim1)
  have hmy := mapped_mem hmin0 hminmax hmax1 hcy.1 (hcy.2.trans hlim1)
  exact fireFromMapped_mono _ _ hmx.1 (mapped_mono hminmax hc) hmy.2

theorem C3_witness :
    (0 : ℚ) ≤ 0 ∧ (1/4 : ℚ) ≤ 1/2 ∧
    (({ Dimmer.init with powerLUTEnabled := true, semiPeriod := 10000 } : Dimmer).setDutyCycle (1/4)).1.dutyCycleFire ≤
      (({ Dimmer.init with powerLUTEnabled := true, semiPeriod := 10000 } : Dimmer).setDutyCycle (1/2)).1.dutyCycleFire :=
  ⟨le_refl 0, by norm_num,
    (C3_dutyCycleFire_monotone _ (1/4) (1/2) (le_refl 0) zero_le_one (le_refl 1)
      zero_le_one (le_refl 1) (by norm_num) (by norm_num) (by norm_num)).2.2.2⟩

/-- C4: `ThyristorDimmer::calculateMetrics` agrees with the spec's metric
contract: it fails exactly when `V ≤ 0` or `R ≤ 0` or the dimmer is
disabled; at `d = 0` it fills zeros with PF and THDi NaN; at `d ≥ 1` it
returns full power; for `0 < d < 1` it returns `P = d·P0`, `PF = √d`,
`V_out = PF·V`, `I = V_out/R`, `S = V·I`, `THDi = 100·√(1/d − 1)`; and
(second conjunct) `PF² · P0 = d · P0`, i.e. `P = PF²·P0`. -/
theorem C4_metrics_match_spec (enabled : Bool) (d V R : ℝ) (hd : 0 ≤ d) :
    thyristorCalculateMetrics enabled d V R = specCalculateMetrics enabled d V R ∧
    Real.sqrt d ^ 2 * (V * V / R) = d * (V * V / R) := by
  constructor
  · unfold thyristorCalculateMetrics specCalculateMetrics calculatePhaseControlMetrics
    cases enabled with
    | false => simp
    | true =>
      by_cases hRV : 0 < R ∧ 0 < V
      · have hVRfalse : ¬ (V ≤ 0 ∨ R ≤ 0 ∨ (true : Bool) = false) := by
          rintro (h | h | h)
          · linarith [hRV.2]
          · linarith [hRV.1]
          · exact Bool.noConfusion h
        rw [if_pos rfl, if_pos hRV, if_neg hVRfalse]
        by_cases hd0 : 0 < d
        · rw [if_pos hd0, if_neg hd0.ne']
        · have hdz : d = 0 := le_antisymm (not_lt.mp hd0) hd
          rw [if_neg hd0, if_pos hdz]
      · have hor : V ≤ 0 ∨ R ≤ 0 ∨ (true : Bool) = false := by
          rcases not_and_or.mp hRV with h | h
          · exact Or.inr (Or.inl (not_lt.mp h))
          · exact Or.inl (not_lt.mp h)
        rw [if_pos rfl, if_neg hRV, if_pos hor]
  · rw [Real.sq_sqrt hd]

theorem C4_witness :
    thyristorCalculateMetrics true 1 230 50 = specCalculateMetrics true 1 230 50 ∧
    Real.sqrt 1 ^ 2 * (230 * 230 / 50) = 1 * (230 * 230 / 50) :=
  C4_metrics_match_spec true 1 230 50 zero_le_one

/-- C7: `calculateHarmonics` for a phase-control backend: all `n` entries
are 0 when the dimmer is offline or `duty_cycle_fire = 0`; `H1 = 100` and
the rest 0 when `duty_cycle_fire = 1`; for `0 < fire < 1` it writes
`H1 = 100` as anchor and only the odd harmonics `H3, H5, …, H(2n−1)` per
the source's closed-form entry, and it returns failure with every entry
left NaN exactly when `I1_rms ≤ 0.001`. -/
theorem C7_harmonics_structure (online : Bool) (fire : ℝ) (n : ℕ) (hn : 1 ≤ n) :
    ((online = false ∨ fire = 0) →
      dimmerCalculateHarmonics online fire n = (true, List.replicate n (some 0))) ∧
    (online = true → fire = 1 →
      dimmerCalculateHarmonics online fire n =
        (true, some 100 :: List.replicate (n - 1) (some 0))) ∧
    (online = true → 0 < fire → fire < 1 →
      (i1rms fire ≤ 0.001 →
        dimmerCalculateHarmonics online fire n = (false, List.replicate n none)) ∧
      (0.001 < i1rms fire →
        dimmerCalculateHarmonics online fire n =
          (true, some 100 ::
            (List.range (n - 1)).map fun j => some (harmonicEntry fire (j + 1))))) := by
  have hn0 : ¬ n = 0 := by omega
  refine ⟨?_, ?_, ?_⟩
  · intro h
    unfold dimmerCalculateHarmonics
    have hcase : online = false ∨ fire ≤ 0 := by
      rcases h with h | h
      · exact Or.inl h
      · exact Or.inr (le_of_eq h)
    rw [if_neg hn0, if_pos hcase]
  · intro ho h1
    unfold dimmerCalculateHarmonics
    have hc1 : ¬ (online = false ∨ fire ≤ 0) := by
      rintro (h | h)
      · rw [ho] at h
        exact Bool.noConfusion h
      · rw [h1] at h
        linarith
    rw [if_neg hn0, if_neg hc1, if_pos (le_of_eq h1.symm)]
  · intro ho hf0 hf1
    have hc1 : ¬ (online = false ∨ fire ≤ 0) := by
      rintro (h | h)
      · rw [ho] at h
        exact Bool.noConfusion h
      · linarith
    have hc2 : ¬ (1 : ℝ) ≤ fire := not_le.mpr hf1
    constructor
    · intro hrms
      unfold dimmerCalculateHarmonics calculatePhaseControlHarmonics
      rw [if_neg hn0, if_neg hc1, if_neg hc2, if_pos hrms]
    · intro hrms
      unfold dimmerCalculateHarmonics calculatePhaseControlHarmonics
      rw [if_neg hn0, if_neg hc1, if_neg hc2, if_neg (not_le.mpr hrms)]

theorem C7_witness :
    (1 ≤ 2) ∧
    (((true : Bool) = false ∨ (1/2 : ℝ) = 0) →
      dimmerCalculateHarmonics true (1/2) 2 = (true, List.replicate 2 (some 0))) ∧
    ((true : Bool) = true → (1/2 : ℝ) = 1 →
      dimmerCalculateHarmonics true (1/2) 2 =
        (true, some 100 :: List.replicate 1 (some 0))) ∧
    ((true : Bool) = true → (0 : ℝ) < 1/2 → (1/2 : ℝ) < 1 →
      (i1rms (1/2) ≤ 0.001 →
        dimmerCalculateHarmonics true (1/2) 2 = (false, List.replicate 2 none)) ∧
      (0.001 < i1rms (1/2) →
        dimmerCalculateHarmonics true (1/2) 2 =
          (true, some 100 ::
            (List.range 1).map fun j => some (harmonicEntry (1/2) (j + 1))))) :=
  ⟨by decide, C7_harmonics_structure true (1/2) 2 (by decide)⟩
